import Mathlib

set_option maxHeartbeats 1000000
set_option maxRecDepth 10000

/-!
Shallow embedding of the StableSwap math core of the aex402 C++ SDK.

The repository contains two inline copies of the 2-token math: one in
`src/math.hpp` (namespace `MathHpp` below) and one in `src/stableswap.hpp`
(namespace `StableswapHpp` below).  Machine integers (`uint64_t`,
`__uint128_t`) are modelled as `Nat` with explicit reduction modulo
`2^64` / `2^128` at every operation where the C++ value can wrap.
`std::optional` results are modelled by `MRes` (or `Option`), with the
extra constructor `MRes.ub` (resp. `Option.none` for the square-root
helpers) marking undefined behaviour: an unsigned division by zero in
the C++ source.
-/

/-- Constant `2^64`, the modulus of `uint64_t` arithmetic. -/
def U64 : Nat := 18446744073709551616

/-- Constant `2^128`, the modulus of `__uint128_t` arithmetic. -/
def U128 : Nat := 340282366920938463463374607431768211456

/-- Constant `NEWTON_ITERATIONS` from `src/constants.hpp` (line 48). -/
def NEWTON_ITERATIONS : Nat := 255

/-- Constant `FEE_DENOMINATOR` from `src/math.hpp` (line 25). -/
def FEE_DENOMINATOR : Nat := 10000

/-- Outcome of a C++ function returning `std::optional<uint64_t>`:
`ub` marks undefined behaviour (an unsigned division by zero reached
before any value is returned), `fail` is `std::nullopt`, `ok v` is a
value. -/
inductive MRes where
  | ub : MRes
  | fail : MRes
  | ok : Nat → MRes
deriving DecidableEq, Repr

/-- Wrapping `uint64_t` subtraction `a - b`. -/
def sub64 (a b : Nat) : Nat := (a % U64 + (U64 - b % U64)) % U64

namespace MathHpp

/-- The `while (y < x)` loop shared by `isqrt` (math.hpp lines 57-60,
`W = 2^64`) and `isqrt128` (lines 75-78, `W = 2^128`).  The loop body is
`x = y; y = (x + n / x) / 2;` in `W`-bit unsigned arithmetic; only the
addition can wrap.  `x` strictly decreases on every pass, so a fuel of
`x` bounds the iteration count; reaching fuel `0` with `y < x` still
pending does not occur for the fuels used below.  When the loop would
compute `n / x` with `x = 0` (undefined behaviour in C++), the model
returns `none`. -/
def isqrtLoop (W n : Nat) : Nat → Nat → Nat → Option Nat
  | 0, x, _ => some x
  | fuel + 1, x, y =>
    if y < x then
      if y = 0 then none
      else isqrtLoop W n fuel y (((y + n / y) % W) / 2)
    else some x

/-- Model of `isqrt` from `src/math.hpp` lines 50-63.  `uint64_t` Newton
iteration; the initial `y = (x + 1) / 2` wraps when `n = 2^64 - 1`. -/
def isqrt (n : Nat) : Option Nat :=
  if n = 0 then some 0
  else if n ≤ 3 then some 1
  else isqrtLoop U64 n n n (((n + 1) % U64) / 2)

/-- Model of `isqrt128` from `src/math.hpp` lines 68-81: the same loop in
`__uint128_t` arithmetic, with the final value cast to `uint64_t`. -/
def isqrt128 (n : Nat) : Option Nat :=
  if n = 0 then some 0
  else if n ≤ 3 then some 1
  else (isqrtLoop U128 n n n (((n + 1) % U128) / 2)).map (· % U64)

/-- One Newton step plus convergence test of `calc_d`
(`src/math.hpp` lines 116-138), iterated `NEWTON_ITERATIONS` times.
`d_p` is computed as `mul128(d, d) / (2*x) * d / (2*y)`; a zero
divisor `2*x` or `2*y` (in `uint64_t`, so also `x = 2^63`) is undefined
behaviour.  The denominator uses the exact 128-bit product
`mul128(ann - 1, d)` and is explicitly checked against zero
(line 128), returning `std::nullopt`. -/
def calc_d_loop (x y s ann : Nat) : Nat → Nat → MRes
  | 0, _ => .fail
  | fuel + 1, d =>
    let tx := 2 * x % U64
    if tx = 0 then .ub else
    let dp1 := d * d / tx
    let ty := 2 * y % U64
    if ty = 0 then .ub else
    let d_p := dp1 * d % U128 / ty
    let num := (ann * s + d_p * 2) % U128 * d % U128
    let denom := ((ann + (U64 - 1)) % U64 * d + d_p * 3) % U128
    if denom = 0 then .fail
    else
      let d2 := num / denom % U64
      if d2 > d then
        if d2 - d ≤ 1 then .ok d2 else calc_d_loop x y s ann fuel d2
      else
        if d - d2 ≤ 1 then .ok d2 else calc_d_loop x y s ann fuel d2

/-- Model of `calc_d` from `src/math.hpp` lines 109-141.  `s = x + y` is a
wrapping `uint64_t` sum; `s = 0` returns `0` immediately. -/
def calc_d (x y amp : Nat) : MRes :=
  let s := (x + y) % U64
  if s = 0 then .ok 0
  else calc_d_loop x y s (amp * 4 % U64) NEWTON_ITERATIONS s

/-- The Newton loop of `calc_y` (`src/math.hpp` lines 175-192): the
numerator is the wrapping 128-bit `y*y + c`, the denominator the
wrapping `uint64_t` `2*y + b - d`, checked against zero (line 182). -/
def calc_y_loop (c b d : Nat) : Nat → Nat → MRes
  | 0, _ => .fail
  | fuel + 1, y =>
    let num := (y * y + c) % U128
    let denom := sub64 (2 * y + b) d
    if denom = 0 then .fail
    else
      let y2 := num / denom % U64
      if y2 > y then
        if y2 - y ≤ 1 then .ok y2 else calc_y_loop c b d fuel y2
      else
        if y - y2 ≤ 1 then .ok y2 else calc_y_loop c b d fuel y2

/-- Model of `calc_y` from `src/math.hpp` lines 163-195.  `c` is computed as
`mul128(d, d) / (2*x_new) * d / (2*ann)`; zero values of the `uint64_t`
divisors `2*x_new` and `2*ann` are undefined behaviour, and `b` is the
wrapping sum `x_new + d / ann`. -/
def calc_y (x_new d amp : Nat) : MRes :=
  let ann := amp * 4 % U64
  let tx := 2 * x_new % U64
  if tx = 0 then .ub else
  let c1 := d * d / tx
  let ta := 2 * ann % U64
  if ta = 0 then .ub else
  let c := c1 * d % U128 / ta
  let b := (x_new + d / ann) % U64
  calc_y_loop c b d NEWTON_ITERATIONS d

/-- Model of `simulate_swap` from `src/math.hpp` lines 207-229: solver failures
propagate; when `new_bal_out ≥ bal_out` the function returns `0`
(line 221) before the subtraction; the fee multiply
`amount_out * fee_bps` is a wrapping `uint64_t` product. -/
def simulate_swap (bal_in bal_out amount_in amp fee_bps : Nat) : MRes :=
  match calc_d bal_in bal_out amp with
  | .ub => .ub
  | .fail => .fail
  | .ok d =>
    match calc_y ((bal_in + amount_in) % U64) d amp with
    | .ub => .ub
    | .fail => .fail
    | .ok new_bal_out =>
      if new_bal_out ≥ bal_out then .ok 0
      else
        let amount_out := bal_out - new_bal_out
        let fee := amount_out * fee_bps % U64 / FEE_DENOMINATOR
        .ok (sub64 amount_out fee)

/-- Model of `calc_initial_lp` from `src/math.hpp` lines 235-238:
`isqrt128(mul128(amount0, amount1))`. -/
def calc_initial_lp (amount0 amount1 : Nat) : Option Nat :=
  isqrt128 (amount0 * amount1)

/-- Model of `calc_lp_tokens` from `src/math.hpp` lines 251-270.  Both `calc_d`
calls run before the combined `!d0 || !d1 || *d0 == 0` check; the mint
is `mul128(lp_supply, *d1 - *d0) / *d0` with a wrapping `uint64_t`
difference `*d1 - *d0` and a final cast to `uint64_t`. -/
def calc_lp_tokens (amt0 amt1 bal0 bal1 lp_supply amp : Nat) : MRes :=
  if lp_supply = 0 then
    match calc_initial_lp amt0 amt1 with
    | none => .ub
    | some r => .ok r
  else
    match calc_d bal0 bal1 amp,
          calc_d ((bal0 + amt0) % U64) ((bal1 + amt1) % U64) amp with
    | .ub, _ => .ub
    | _, .ub => .ub
    | .fail, _ => .fail
    | _, .fail => .fail
    | .ok d0, .ok d1 =>
      if d0 = 0 then .fail
      else .ok (lp_supply * sub64 d1 d0 / d0 % U64)

/-- Model of `WithdrawResult` from `src/math.hpp` lines 281-284. -/
structure WithdrawResult where
  amount0 : Nat
  amount1 : Nat
deriving DecidableEq, Repr

/-- Model of `div128` from `src/math.hpp` lines 42-45: guarded 128-by-64
division returning `0` on a zero divisor, result cast to `uint64_t`. -/
def div128 (n d : Nat) : Nat :=
  if d = 0 then 0 else n / d % U64

/-- Model of `calc_withdraw` from `src/math.hpp` lines 286-297. -/
def calc_withdraw (lp_amount bal0 bal1 lp_supply : Nat) :
    Option WithdrawResult :=
  if lp_supply = 0 then none
  else some ⟨div128 (bal0 * lp_amount) lp_supply,
             div128 (bal1 * lp_amount) lp_supply⟩

/-- Smallest / largest `int64_t` values. -/
def I64_MIN : Int := -9223372036854775808

/-- Largest `int64_t` value. -/
def I64_MAX : Int := 9223372036854775807

/-- Model of `get_current_amp` from `src/math.hpp` lines 309-330 (the inline
`Pool::get_amp` in `src/stableswap.hpp` lines 213-225 has the same
branch structure).  Timestamps are `int64_t`; the differences
`now - ramp_start` and `ramp_end - ramp_start` are signed subtractions
whose overflow is undefined behaviour (`none`).  On the interpolating
branch the casts to `uint64_t` of the (positive) differences and the
wrapping `uint64_t` products and sums are modelled explicitly. -/
def get_current_amp (amp target_amp : Nat)
    (ramp_start ramp_end now : Int) : Option Nat :=
  if now ≥ ramp_end ∨ ramp_end = ramp_start then some target_amp
  else if now ≤ ramp_start then some amp
  else
    let elapsed : Int := now - ramp_start
    let duration : Int := ramp_end - ramp_start
    if elapsed < I64_MIN ∨ elapsed > I64_MAX ∨
        duration < I64_MIN ∨ duration > I64_MAX then none
    else
      let e := elapsed.toNat
      let dur := duration.toNat
      if target_amp > amp then
        some ((amp + (target_amp - amp) * e % U64 / dur) % U64)
      else
        some (sub64 amp ((amp - target_amp) * e % U64 / dur))

end MathHpp

namespace StableswapHpp

/-- The Newton loop of the second `calc_d` copy
(`src/stableswap.hpp` lines 731-747).  Unlike the `math.hpp` copy, the
denominator term `(ann - 1) * d` is a plain `uint64_t` product (it
wraps at `2^64`), and there is no zero-denominator check: a zero
denominator is an unguarded `__uint128_t` division by zero. -/
def calc_d_loop (x y s ann : Nat) : Nat → Nat → MRes
  | 0, _ => .fail
  | fuel + 1, d =>
    let tx := 2 * x % U64
    if tx = 0 then .ub else
    let dp1 := d * d / tx
    let ty := 2 * y % U64
    if ty = 0 then .ub else
    let d_p := dp1 * d % U128 / ty
    let num := (ann * s + d_p * 2) % U128 * d % U128
    let denom := ((ann + (U64 - 1)) % U64 * d % U64 + d_p * 3) % U128
    if denom = 0 then .ub
    else
      let d2 := num / denom % U64
      if d2 > d then
        if d2 - d ≤ 1 then .ok d2 else calc_d_loop x y s ann fuel d2
      else
        if d - d2 ≤ 1 then .ok d2 else calc_d_loop x y s ann fuel d2

/-- Model of `calc_d` from `src/stableswap.hpp` lines 723-749. -/
def calc_d (x y amp : Nat) : MRes :=
  let s := (x + y) % U64
  if s = 0 then .ok 0
  else calc_d_loop x y s (amp * 4 % U64) NEWTON_ITERATIONS s

/-- The Newton loop of the second `calc_y` copy
(`src/stableswap.hpp` lines 763-775): no zero-denominator check, so a
zero `2*y + b - d` is an unguarded division by zero. -/
def calc_y_loop (c b d : Nat) : Nat → Nat → MRes
  | 0, _ => .fail
  | fuel + 1, y =>
    let num := (y * y + c) % U128
    let denom := sub64 (2 * y + b) d
    if denom = 0 then .ub
    else
      let y2 := num / denom % U64
      if y2 > y then
        if y2 - y ≤ 1 then .ok y2 else calc_y_loop c b d fuel y2
      else
        if y - y2 ≤ 1 then .ok y2 else calc_y_loop c b d fuel y2

/-- Model of `calc_y` from `src/stableswap.hpp` lines 752-776. -/
def calc_y (x_new d amp : Nat) : MRes :=
  let ann := amp * 4 % U64
  let tx := 2 * x_new % U64
  if tx = 0 then .ub else
  let c1 := d * d / tx
  let ta := 2 * ann % U64
  if ta = 0 then .ub else
  let c := c1 * d % U128 / ta
  let b := (x_new + d / ann) % U64
  calc_y_loop c b d NEWTON_ITERATIONS d

/-- Model of `simulate_swap` from `src/stableswap.hpp` lines 779-797.  Unlike
the `math.hpp` copy there is no `new_bal_out >= bal_out` clamp:
`amount_out = bal_out - *new_bal_out` is a wrapping `uint64_t`
subtraction. -/
def simulate_swap (bal_in bal_out amount_in amp fee_bps : Nat) : MRes :=
  match calc_d bal_in bal_out amp with
  | .ub => .ub
  | .fail => .fail
  | .ok d =>
    match calc_y ((bal_in + amount_in) % U64) d amp with
    | .ub => .ub
    | .fail => .fail
    | .ok new_bal_out =>
      let amount_out := sub64 bal_out new_bal_out
      let fee := amount_out * fee_bps % U64 / FEE_DENOMINATOR
      .ok (sub64 amount_out fee)

/-- The inline initial-deposit square-root loop of
`src/stableswap.hpp` `calc_lp_tokens` (lines 806-813): `lp` starts at
`1` and the loop `for (i < 64)` exits (`break`) as soon as
`next >= lp`; `product / lp` with `lp = 0` is an unguarded division by
zero. -/
def lp_loop (product : Nat) : Nat → Nat → MRes
  | 0, lp => .ok lp
  | i + 1, lp =>
    if lp = 0 then .ub else
    let next := (lp + product / lp) % U128 / 2 % U64
    if next ≥ lp then .ok lp else lp_loop product i next

/-- Model of `calc_lp_tokens` from `src/stableswap.hpp` lines 800-824. -/
def calc_lp_tokens (amt0 amt1 bal0 bal1 lp_supply amp : Nat) : MRes :=
  if lp_supply = 0 then
    lp_loop (amt0 * amt1) 64 1
  else
    match calc_d bal0 bal1 amp,
          calc_d ((bal0 + amt0) % U64) ((bal1 + amt1) % U64) amp with
    | .ub, _ => .ub
    | _, .ub => .ub
    | .fail, _ => .fail
    | _, .fail => .fail
    | .ok d0, .ok d1 =>
      if d0 = 0 then .fail
      else .ok (lp_supply * sub64 d1 d0 / d0 % U64)

end StableswapHpp

/-- Decidable trace predicate over the shared Newton iteration of the
two `calc_d` copies: `true` iff the run never wraps the
`(ann - 1) * d` product at `2^64` (computed by the exact `mul128` in
math.hpp but by a plain wrapping `uint64_t` multiply in stableswap.hpp)
and never reaches a zero denominator (`std::nullopt` in math.hpp, an
unguarded division by zero in stableswap.hpp).  On such runs the two
copies perform identical arithmetic. -/
def calc_d_agrees_loop (x y s ann : Nat) : Nat → Nat → Bool
  | 0, _ => true
  | fuel + 1, d =>
    let tx := 2 * x % U64
    if tx = 0 then true else
    let dp1 := d * d / tx
    let ty := 2 * y % U64
    if ty = 0 then true else
    let d_p := dp1 * d % U128 / ty
    let num := (ann * s + d_p * 2) % U128 * d % U128
    if U64 ≤ (ann + (U64 - 1)) % U64 * d then false else
    let denom := ((ann + (U64 - 1)) % U64 * d + d_p * 3) % U128
    if denom = 0 then false
    else
      let d2 := num / denom % U64
      if d2 > d then
        if d2 - d ≤ 1 then true else calc_d_agrees_loop x y s ann fuel d2
      else
        if d - d2 ≤ 1 then true else calc_d_agrees_loop x y s ann fuel d2

/-- Trace predicate for a full `calc_d` run, starting like both
copies from `d = s`. -/
def calc_d_agrees (x y amp : Nat) : Bool :=
  let s := (x + y) % U64
  if s = 0 then true
  else calc_d_agrees_loop x y s (amp * 4 % U64) NEWTON_ITERATIONS s

theorem sub64_of_le {a b : Nat} (hb : b ≤ a) (ha : a < U64) :
    sub64 a b = a - b := by
  unfold sub64 U64 at *
  omega

theorem add_le_mul_succ {x q : Nat} (hx : 1 ≤ x) (hq : 1 ≤ q) :
    x + q ≤ x * q + 1 := by
  obtain ⟨a, rfl⟩ : ∃ a, x = a + 1 := ⟨x - 1, by omega⟩
  obtain ⟨b, rfl⟩ : ∃ b, q = b + 1 := ⟨q - 1, by omega⟩
  have h : (a + 1) * (b + 1) = a * b + a + b + 1 := by ring
  omega

theorem x_add_div_le (n x : Nat) (hx : 1 ≤ x) (hxn : x ≤ n) :
    x + n / x ≤ n + 1 := by
  have hq : 1 ≤ n / x := (Nat.one_le_div_iff hx).mpr hxn
  have h1 : x + n / x ≤ x * (n / x) + 1 := add_le_mul_succ hx hq
  have h2 : x * (n / x) ≤ n := by
    rw [Nat.mul_comm]
    exact Nat.div_mul_le_self n x
  omega

/-- One Newton step never drops below the integer square root:
`sqrt n ≤ (x + n / x) / 2` for every positive `x`. -/
theorem sqrt_le_newton_step (n x : Nat) (hx : 1 ≤ x) :
    Nat.sqrt n ≤ (x + n / x) / 2 := by
  have hs2 : Nat.sqrt n * Nat.sqrt n ≤ n := Nat.sqrt_le n
  have hstep : 2 * Nat.sqrt n ≤ x + Nat.sqrt n * Nat.sqrt n / x := by
    by_contra hcon
    push_neg at hcon
    have hdm : x * (Nat.sqrt n * Nat.sqrt n / x) +
        Nat.sqrt n * Nat.sqrt n % x = Nat.sqrt n * Nat.sqrt n :=
      Nat.div_add_mod _ x
    have hmx : Nat.sqrt n * Nat.sqrt n % x < x := Nat.mod_lt _ hx
    have hmul : x * (x + Nat.sqrt n * Nat.sqrt n / x + 1) ≤
        x * (2 * Nat.sqrt n) := Nat.mul_le_mul_left x (by omega)
    have e1 : x * (x + Nat.sqrt n * Nat.sqrt n / x + 1) =
        x * x + x * (Nat.sqrt n * Nat.sqrt n / x) + x := by ring
    rw [e1] at hmul
    have e2 : x * (2 * Nat.sqrt n) ≤ x * x + Nat.sqrt n * Nat.sqrt n := by
      nlinarith [two_mul_le_add_sq x (Nat.sqrt n)]
    linarith
  have hdiv : Nat.sqrt n * Nat.sqrt n / x ≤ n / x :=
    Nat.div_le_div_right hs2
  have h2 : 2 * Nat.sqrt n ≤ x + n / x := by omega
  calc Nat.sqrt n = 2 * Nat.sqrt n / 2 := by omega
    _ ≤ (x + n / x) / 2 := Nat.div_le_div_right h2

/-- At a loop exit (`(x + n / x) / 2` no longer below `x`) with the
invariant `sqrt n ≤ x`, the current value is exactly `sqrt n`. -/
theorem newton_exit (n x : Nat) (hx : 1 ≤ x) (hs : Nat.sqrt n ≤ x)
    (hexit : x ≤ (x + n / x) / 2) : x = Nat.sqrt n := by
  by_contra hne
  have hgt : Nat.sqrt n < x := lt_of_le_of_ne hs (Ne.symm hne)
  have hn : n < x * x := by
    have hsucc := Nat.lt_succ_sqrt n
    nlinarith
  have hdx : n / x < x := (Nat.div_lt_iff_lt_mul (by omega)).mpr hn
  generalize hq : n / x = q at hexit hdx
  omega

theorem sqrt_eq_of_bounds {n r : Nat} (h1 : r * r ≤ n)
    (h2 : n < (r + 1) * (r + 1)) : Nat.sqrt n = r :=
  le_antisymm (Nat.lt_succ_iff.mp (Nat.sqrt_lt.mpr h2)) (Nat.le_sqrt.mpr h1)

/-- Correctness of the shared Newton square-root loop: starting above
`sqrt n` with enough fuel and no possibility of wrapping
(`n + 1 < W`), it converges to the integer square root. -/
theorem isqrtLoop_correct (W n : Nat) (hn : 4 ≤ n) (hW : n + 1 < W) :
    ∀ fuel x, 1 ≤ x → x ≤ n → x ≤ fuel → Nat.sqrt n ≤ x →
      MathHpp.isqrtLoop W n fuel x (((x + n / x) % W) / 2) =
        some (Nat.sqrt n) := by
  intro fuel
  induction fuel with
  | zero => intro x hx _ hxf _; omega
  | succ m ih =>
    intro x hx hxn hxf hsx
    have hmod : (x + n / x) % W = x + n / x :=
      Nat.mod_eq_of_lt (lt_of_le_of_lt (x_add_div_le n x hx hxn) hW)
    rw [hmod]
    simp only [MathHpp.isqrtLoop]
    by_cases hlt : (x + n / x) / 2 < x
    · rw [if_pos hlt]
      have hsy : Nat.sqrt n ≤ (x + n / x) / 2 := sqrt_le_newton_step n x hx
      have h2s : 2 ≤ Nat.sqrt n := Nat.le_sqrt.mpr (by omega)
      have hy0 : ¬((x + n / x) / 2 = 0) := by omega
      rw [if_neg hy0]
      exact ih ((x + n / x) / 2) (by omega) (by omega) (by omega) hsy
    · rw [if_neg hlt]
      have hxy : x ≤ (x + n / x) / 2 := le_of_not_lt hlt
      rw [newton_exit n x hx hsx hxy]

/-- Full correctness of `isqrt` below the wrapping boundary. -/
theorem isqrt_correct (n : Nat) (hn : n ≤ U64 - 2) :
    MathHpp.isqrt n = some (Nat.sqrt n) := by
  unfold MathHpp.isqrt
  by_cases h0 : n = 0
  · subst h0; simp
  · rw [if_neg h0]
    by_cases h3 : n ≤ 3
    · rw [if_pos h3]
      rw [sqrt_eq_of_bounds (show 1 * 1 ≤ n by omega)
        (show n < (1 + 1) * (1 + 1) by omega)]
    · rw [if_neg h3]
      have hn' : n ≤ 18446744073709551614 := hn
      have hW : n + 1 < U64 := by
        show n + 1 < 18446744073709551616
        omega
      have start : ((n + n / n) % U64) / 2 = ((n + 1) % U64) / 2 := by
        rw [Nat.div_self (show 0 < n by omega)]
      rw [← start]
      exact isqrtLoop_correct U64 n (by omega) hW n n (by omega)
        (le_refl n) (le_refl n) (Nat.sqrt_le_self n)

/-- Full correctness of `isqrt128` below the wrapping boundary. -/
theorem isqrt128_correct (n : Nat) (hn : n ≤ U128 - 2) :
    MathHpp.isqrt128 n = some (Nat.sqrt n) := by
  unfold MathHpp.isqrt128
  by_cases h0 : n = 0
  · subst h0; simp
  · rw [if_neg h0]
    by_cases h3 : n ≤ 3
    · rw [if_pos h3]
      rw [sqrt_eq_of_bounds (show 1 * 1 ≤ n by omega)
        (show n < (1 + 1) * (1 + 1) by omega)]
    · rw [if_neg h3]
      have hn' : n ≤ 340282366920938463463374607431768211454 := hn
      have hW : n + 1 < U128 := by
        show n + 1 < 340282366920938463463374607431768211456
        omega
      have start : ((n + n / n) % U128) / 2 = ((n + 1) % U128) / 2 := by
        rw [Nat.div_self (show 0 < n by omega)]
      rw [← start]
      rw [isqrtLoop_correct U128 n (by omega) hW n n (by omega)
        (le_refl n) (le_refl n) (Nat.sqrt_le_self n)]
      have hsmall : Nat.sqrt n < U64 := by
        by_contra hbig
        push_neg at hbig
        have h1 : U64 * U64 ≤ Nat.sqrt n * Nat.sqrt n :=
          Nat.mul_le_mul hbig hbig
        have h2 : Nat.sqrt n * Nat.sqrt n ≤ n := Nat.sqrt_le n
        have h3 : U128 = U64 * U64 := by decide
        omega
      simp [Nat.mod_eq_of_lt hsmall]

/-- Claim C8 counterexample: at `n = 2^64 - 1` the initial `uint64_t`
Newton value `(x + 1) / 2` wraps to `0`, the loop then sets `x = 0` and
computes `n / x` — an unguarded division by zero — so `isqrt` does not
terminate with the integer square root `4294967295` of `n`. -/
theorem isqrt_max_u64_ub :
    MathHpp.isqrt 18446744073709551615 = none ∧
      4294967295 * 4294967295 ≤ 18446744073709551615 ∧
      18446744073709551615 < 4294967296 * 4294967296 := by
  refine ⟨by decide, by decide, by decide⟩

/-- Claim C8 (amended): away from the maximal representable value
(`n ≤ 2^64 - 2` for `isqrt`, `n ≤ 2^128 - 2` for `isqrt128`) both
square-root routines terminate and return the largest `r` with
`r * r ≤ n` (in particular `0` at `0` and `1` on `1 ≤ n ≤ 3`). -/
theorem isqrt_isqrt128_correct (n m : Nat)
    (hn : n ≤ U64 - 2) (hm : m ≤ U128 - 2) :
    (∃ r, MathHpp.isqrt n = some r ∧ r * r ≤ n ∧ n < (r + 1) * (r + 1)) ∧
      (∃ r, MathHpp.isqrt128 m = some r ∧ r * r ≤ m ∧
        m < (r + 1) * (r + 1)) :=
  ⟨⟨Nat.sqrt n, isqrt_correct n hn, Nat.sqrt_le n, Nat.lt_succ_sqrt n⟩,
   ⟨Nat.sqrt m, isqrt128_correct m hm, Nat.sqrt_le m, Nat.lt_succ_sqrt m⟩⟩

theorem isqrt_isqrt128_correct_witness :
    (∃ r, MathHpp.isqrt 10 = some r ∧ r * r ≤ 10 ∧
        10 < (r + 1) * (r + 1)) ∧
      (∃ r, MathHpp.isqrt128 17 = some r ∧ r * r ≤ 17 ∧
        17 < (r + 1) * (r + 1)) :=
  isqrt_isqrt128_correct 10 17 (by decide) (by decide)

/-- Claim C1 (code bug): `calc_d` with exactly one zero balance does
not return a failure — both copies reach an unguarded division by zero
(`d*d / (2*x)`, or `d_p * d / (2*y)` when `y = 0`), modelled as
`MRes.ub`. -/
theorem calc_d_single_zero_balance_ub :
    MathHpp.calc_d 0 1 1 = .ub ∧ MathHpp.calc_d 1 0 1 = .ub ∧
      StableswapHpp.calc_d 0 1 1 = .ub ∧
      StableswapHpp.calc_d 1 0 1 = .ub := by
  decide

/-- Claim C2 (code bug): on the initial deposit
`(100000000, 400000000)` with `lp_supply = 0`, the math.hpp copy of
`calc_lp_tokens` returns the integer square root `200000000` of the
product, but the stableswap.hpp copy's inline square-root loop (seeded
at `lp = 1` with exit test `next >= lp`) exits on its first pass and
returns `1`. -/
theorem calc_lp_tokens_initial_deposit_eval :
    MathHpp.calc_lp_tokens 100000000 400000000 0 0 0 1 = .ok 200000000 ∧
      StableswapHpp.calc_lp_tokens 100000000 400000000 0 0 0 1 = .ok 1 := by
  decide

/-- Claim C3 (code bug): an input on which both solvers succeed and
`calc_y` returns a new output balance (`19`) above the pre-trade output
balance (`10`): the math.hpp `simulate_swap` clamps the gross output to
`0`, but the stableswap.hpp copy evaluates the wrapped subtraction
`10 - 19` in `uint64_t` and returns `2^64 - 9`. -/
theorem simulate_swap_missing_clamp_eval :
    MathHpp.calc_d 10 10 100 = .ok 20 ∧
      MathHpp.calc_y 1 20 100 = .ok 19 ∧
      MathHpp.simulate_swap 10 10 18446744073709551607 100 0 = .ok 0 ∧
      StableswapHpp.simulate_swap 10 10 18446744073709551607 100 0 =
        .ok 18446744073709551607 := by
  decide

/-- Claim C4 (code bug): a deposit of `(1, 0)` on balances `(35, 1)`
with `amp = 1` yields a post-deposit invariant `22` strictly below the
pre-deposit invariant `23`, and `calc_lp_tokens` does not fail: it
wraps the `uint64_t` difference `22 - 23` and mints
`1000 * (2^64 - 1) / 23` truncated to 64 bits. -/
theorem calc_lp_tokens_d1_lt_d0_eval :
    MathHpp.calc_d 35 1 1 = .ok 23 ∧
      MathHpp.calc_d 36 1 1 = .ok 22 ∧
      MathHpp.calc_lp_tokens 1 0 35 1 1000 1 = .ok 8822355861339350729 := by
  decide

/-- Claim C5 counterexample: on a zero-length ramp window
(`ramp_start = ramp_end = 0`) the `now >= ramp_end || ramp_end ==
ramp_start` branch fires first, so at `now = ramp_start` the function
returns `target_amp = 2`, not the original `amp = 1`; and on a very
wide window the signed difference `now - ramp_start` overflows
`int64_t` (undefined behaviour), so the function does not always return
defined. -/
theorem get_current_amp_boundary_counterexample :
    MathHpp.get_current_amp 1 2 0 0 0 = some 2 ∧
      MathHpp.get_current_amp 1 2 0 0 0 ≠ some 1 ∧
      MathHpp.get_current_amp 5 6 (-9223372036854775808) 2 1 = none := by
  decide

/-- Claim C5 (amended): whenever the ramp window has positive length
(`ramp_start < ramp_end`), `get_current_amp` at `now = ramp_start`
returns the original amp and at `now = ramp_end` returns `target_amp`
exactly, and neither boundary call fails. -/
theorem get_current_amp_boundaries (amp target : Nat) (rs re : Int)
    (h : rs < re) :
    MathHpp.get_current_amp amp target rs re rs = some amp ∧
      MathHpp.get_current_amp amp target rs re re = some target := by
  unfold MathHpp.get_current_amp
  constructor
  · rw [if_neg (by omega : ¬(rs ≥ re ∨ re = rs)), if_pos (le_refl rs)]
  · rw [if_pos (Or.inl (le_refl re))]

theorem get_current_amp_boundaries_witness :
    MathHpp.get_current_amp 7 9 0 10 0 = some 7 ∧
      MathHpp.get_current_amp 7 9 0 10 10 = some 9 :=
  get_current_amp_boundaries 7 9 0 10 (by decide)

/-- Claim C6 counterexample: with balances `10^16`, `amount_in`
`2.5 * 10^15` and `amp = 1000`, both `simulate_swap` calls succeed and
the fee rates satisfy `7000 ≤ 7500 ≤ 10000` basis points, yet the
higher fee returns the larger output: the `uint64_t` fee product
`amount_out * fee_bps` wraps at fee `7500`. -/
theorem simulate_swap_fee_monotonicity_counterexample :
    MathHpp.simulate_swap 10000000000000000 10000000000000000
        2500000000000000 1000 7000 = .ok 749900071057426 ∧
      MathHpp.simulate_swap 10000000000000000 10000000000000000
        2500000000000000 1000 7500 = .ok 2469591133252144 ∧
      749900071057426 < 2469591133252144 := by
  refine ⟨by decide, by decide, by decide⟩

/-- Claim C6 (amended): fee monotonicity holds whenever the output
balance is small enough that the `uint64_t` fee product cannot wrap
(`bal_out * 10000 < 2^64`): for fee rates `F1 ≤ F2 ≤ 10000`, whenever
both `simulate_swap` calls succeed, the net output at fee `F1` is at
least the net output at fee `F2`. -/
theorem simulate_swap_fee_monotonic
    (bal_in bal_out amount_in amp F1 F2 v1 v2 : Nat)
    (hF : F1 ≤ F2) (hF2 : F2 ≤ 10000) (hbo : bal_out * 10000 < U64)
    (h1 : MathHpp.simulate_swap bal_in bal_out amount_in amp F1 = .ok v1)
    (h2 : MathHpp.simulate_swap bal_in bal_out amount_in amp F2 = .ok v2) :
    v2 ≤ v1 := by
  unfold MathHpp.simulate_swap at h1 h2
  cases hd : MathHpp.calc_d bal_in bal_out amp
  case ub => simp [hd] at h1
  case fail => simp [hd] at h1
  case ok d =>
  simp only [hd] at h1 h2
  cases hy : MathHpp.calc_y ((bal_in + amount_in) % U64) d amp
  case ub => simp [hy] at h1
  case fail => simp [hy] at h1
  case ok ny =>
  simp only [hy] at h1 h2
  by_cases hc : ny ≥ bal_out
  · rw [if_pos hc] at h1 h2
    cases h1
    cases h2
    exact le_refl 0
  · rw [if_neg hc] at h1 h2
    simp only [MRes.ok.injEq] at h1 h2
    subst h1
    subst h2
    have hbU : bal_out < U64 := by
      have h10 : bal_out ≤ bal_out * 10000 := by
        nlinarith [Nat.zero_le bal_out]
      exact lt_of_le_of_lt h10 hbo
    have haU : bal_out - ny ≤ bal_out := Nat.sub_le _ _
    have haU64 : bal_out - ny < U64 := lt_of_le_of_lt haU hbU
    have hsm2 : (bal_out - ny) * F2 < U64 :=
      lt_of_le_of_lt (Nat.mul_le_mul haU hF2) hbo
    have hsm1 : (bal_out - ny) * F1 < U64 :=
      lt_of_le_of_lt (Nat.mul_le_mul_left _ hF) hsm2
    rw [Nat.mod_eq_of_lt hsm1, Nat.mod_eq_of_lt hsm2]
    have hfd : FEE_DENOMINATOR = 10000 := rfl
    have hfe1 : (bal_out - ny) * F1 / FEE_DENOMINATOR ≤ bal_out - ny := by
      rw [hfd]
      calc (bal_out - ny) * F1 / 10000
          ≤ (bal_out - ny) * 10000 / 10000 :=
            Nat.div_le_div_right (Nat.mul_le_mul_left _ (hF.trans hF2))
        _ = bal_out - ny := Nat.mul_div_cancel _ (by norm_num)
    have hfe2 : (bal_out - ny) * F2 / FEE_DENOMINATOR ≤ bal_out - ny := by
      rw [hfd]
      calc (bal_out - ny) * F2 / 10000
          ≤ (bal_out - ny) * 10000 / 10000 :=
            Nat.div_le_div_right (Nat.mul_le_mul_left _ hF2)
        _ = bal_out - ny := Nat.mul_div_cancel _ (by norm_num)
    rw [sub64_of_le hfe1 haU64, sub64_of_le hfe2 haU64]
    exact Nat.sub_le_sub_left
      (Nat.div_le_div_right (Nat.mul_le_mul_left _ hF)) _

theorem simulate_swap_fee_monotonic_witness :
    MathHpp.simulate_swap 1000000000000 1000000000000 10000000000 1000 0 =
        .ok 9999950021 ∧
      MathHpp.simulate_swap 1000000000000 1000000000000 10000000000 1000 30 =
        .ok 9969950171 ∧
      9969950171 ≤ 9999950021 :=
  ⟨by decide, by decide,
    simulate_swap_fee_monotonic 1000000000000 1000000000000 10000000000
      1000 0 30 9999950021 9969950171 (by decide) (by decide) (by decide)
      (by decide) (by decide)⟩

/-- Claim C7: burning the entire LP supply via `calc_withdraw` pays
out exactly the full pool balances, and a zero `lp_supply` fails. -/
theorem calc_withdraw_full_burn (lp bal0 bal1 : Nat)
    (h0 : bal0 < U64) (h1 : bal1 < U64) :
    MathHpp.calc_withdraw lp bal0 bal1 lp =
      if lp = 0 then none else some ⟨bal0, bal1⟩ := by
  unfold MathHpp.calc_withdraw MathHpp.div128
  by_cases h : lp = 0
  · simp [h]
  · have hp : 0 < lp := Nat.pos_of_ne_zero h
    simp [h, Nat.mul_div_cancel _ hp, Nat.mod_eq_of_lt h0,
      Nat.mod_eq_of_lt h1]

theorem calc_withdraw_full_burn_witness :
    MathHpp.calc_withdraw 500 1000 2000 500 = some ⟨1000, 2000⟩ := by
  have h := calc_withdraw_full_burn 500 1000 2000 (by decide) (by decide)
  simpa using h

/-- Claim C9 counterexample: the two `calc_d` copies are not
extensionally equal.  At `(3*10^13, 3*10^13, 100000)` the math.hpp copy
(exact `mul128(ann - 1, d)` denominator) converges to `6*10^13`, while
the stableswap.hpp copy wraps `(ann - 1) * d` in `uint64_t` and fails
to converge (`std::nullopt`); at `(1, 1, 0)` math.hpp returns
`std::nullopt` via its zero-denominator guard while stableswap.hpp
divides by zero. -/
theorem calc_d_copies_disagree :
    MathHpp.calc_d 30000000000000 30000000000000 100000 =
        .ok 60000000000000 ∧
      StableswapHpp.calc_d 30000000000000 30000000000000 100000 = .fail ∧
      MathHpp.calc_d 1 1 0 = .fail ∧
      StableswapHpp.calc_d 1 1 0 = .ub := by
  refine ⟨by decide, by decide, by decide, by decide⟩

theorem calc_d_loop_agrees_sound (x y s ann : Nat) :
    ∀ fuel d, calc_d_agrees_loop x y s ann fuel d = true →
      MathHpp.calc_d_loop x y s ann fuel d =
        StableswapHpp.calc_d_loop x y s ann fuel d := by
  intro fuel
  induction fuel with
  | zero => intro d _; rfl
  | succ n ih =>
    intro d hok
    simp only [MathHpp.calc_d_loop, StableswapHpp.calc_d_loop]
    simp only [calc_d_agrees_loop] at hok
    by_cases htx : 2 * x % U64 = 0
    · simp only [if_pos htx]
    · simp only [if_neg htx] at hok ⊢
      by_cases hty : 2 * y % U64 = 0
      · simp only [if_pos hty]
      · simp only [if_neg hty] at hok ⊢
        set d_p := d * d / (2 * x % U64) * d % U128 / (2 * y % U64)
          with hdp
        set annm1 := (ann + (U64 - 1)) % U64 with hann
        by_cases hwrap : U64 ≤ annm1 * d
        · rw [if_pos hwrap] at hok
          exact absurd hok (by simp)
        · rw [if_neg hwrap] at hok
          rw [Nat.mod_eq_of_lt (lt_of_not_ge hwrap)]
          set denom := (annm1 * d + d_p * 3) % U128 with hden0
          by_cases hden : denom = 0
          · rw [if_pos hden] at hok
            exact absurd hok (by simp)
          · rw [if_neg hden] at hok
            simp only [if_neg hden]
            set d2 := (ann * s + d_p * 2) % U128 * d % U128 / denom % U64
              with hd2
            by_cases hgt : d2 > d
            · simp only [if_pos hgt] at hok ⊢
              by_cases hcv : d2 - d ≤ 1
              · simp only [if_pos hcv]
              · simp only [if_neg hcv] at hok ⊢
                exact ih _ hok
            · simp only [if_neg hgt] at hok ⊢
              by_cases hcv : d - d2 ≤ 1
              · simp only [if_pos hcv]
              · simp only [if_neg hcv] at hok ⊢
                exact ih _ hok

/-- Claim C9 (amended): the two `calc_d` copies return the same result
on every input whose Newton run neither wraps the `(ann - 1) * d`
product at `2^64` nor reaches a zero denominator, as witnessed by the
decidable trace predicate `calc_d_agrees`. -/
theorem calc_d_copies_agree (x y amp : Nat)
    (h : calc_d_agrees x y amp = true) :
    MathHpp.calc_d x y amp = StableswapHpp.calc_d x y amp := by
  unfold MathHpp.calc_d StableswapHpp.calc_d
  unfold calc_d_agrees at h
  by_cases hs : (x + y) % U64 = 0
  · simp [hs]
  · simp only [if_neg hs] at h ⊢
    exact calc_d_loop_agrees_sound x y _ _ _ _ h

theorem calc_d_copies_agree_witness :
    MathHpp.calc_d 1 1 1 = StableswapHpp.calc_d 1 1 1 :=
  calc_d_copies_agree 1 1 1 (by decide)

/-- Claim C10: `calc_d` forms the balance sum with wrapping 64-bit
addition, so two positive balances whose true sum is a multiple of
`2^64` hit the empty-pool terminal case: both copies immediately
return `0` even though neither balance is zero. -/
theorem calc_d_wrapped_sum_zero (x y amp : Nat) (_hx : 0 < x) (_hy : 0 < y)
    (h : (x + y) % U64 = 0) :
    MathHpp.calc_d x y amp = .ok 0 ∧ StableswapHpp.calc_d x y amp = .ok 0 := by
  unfold MathHpp.calc_d StableswapHpp.calc_d
  simp [h]

theorem calc_d_wrapped_sum_zero_witness :
    MathHpp.calc_d 9223372036854775808 9223372036854775808 1 = .ok 0 ∧
      StableswapHpp.calc_d 9223372036854775808 9223372036854775808 1 =
        .ok 0 :=
  calc_d_wrapped_sum_zero _ _ 1 (by decide) (by decide) (by decide)
